import Mathlib

/-!
Shallow embedding of src/fetch_nwm.py (NWM-to-S3 pipeline) and proofs about
its Locator (get_latest_nwm_url), Extractor (process_nwm_data), classifiers
(categorize_velocity, categorize_streamflow), publisher (upload_to_s3) and
the main cleanup discipline.

Python float readings are modelled as either NaN or an exact rational; the
claims under study only exercise values and thresholds that are exactly
representable, and every comparison in the source is a plain `<` whose NaN
behaviour (always false) is modelled explicitly.
-/

namespace NWM

/-- Model of a Python float reading from the NetCDF arrays: either NaN
(missing data) or a numeric value, modelled as an exact rational. -/
inductive PyF where
  | nan : PyF
  | val : ℚ → PyF
deriving DecidableEq, Repr

/-- Python strict-less-than of a float reading against a numeric threshold:
every comparison `x < c` is False when x is NaN. -/
def pyLt (x : PyF) (c : ℚ) : Bool :=
  match x with
  | .nan => false
  | .val q => decide (q < c)

/-- Embedding of categorize_velocity (src/fetch_nwm.py lines 140-153):
a chain of strict-less-than tests against fixed ascending thresholds. -/
def categorize_velocity (velocity_ms : PyF) : String :=
  if pyLt velocity_ms 0.1 then "very_slow"
  else if pyLt velocity_ms 0.3 then "slow"
  else if pyLt velocity_ms 0.6 then "moderate"
  else if pyLt velocity_ms 1.0 then "fast"
  else if pyLt velocity_ms 2.0 then "very_fast"
  else "extreme"

/-- Embedding of categorize_streamflow (src/fetch_nwm.py lines 156-169). -/
def categorize_streamflow (cms : PyF) : String :=
  if pyLt cms 1 then "very_low"
  else if pyLt cms 10 then "low"
  else if pyLt cms 50 then "moderate"
  else if pyLt cms 200 then "high"
  else if pyLt cms 1000 then "very_high"
  else "extreme"

/-- Round a rational to the nearest integer, ties to even: the rounding rule
of Python round() on the values in scope. -/
def roundHalfEven (x : ℚ) : ℤ :=
  if x - ⌊x⌋ < 1/2 then ⌊x⌋
  else if x - ⌊x⌋ > 1/2 then ⌊x⌋ + 1
  else if ⌊x⌋ % 2 = 0 then ⌊x⌋ else ⌊x⌋ + 1

/-- Embedding of Python round(q, 2): round to two decimal places. -/
def round2 (q : ℚ) : ℚ := (roundHalfEven (100 * q) : ℚ) / 100

/-- Embedding of Python str() on an integer reach identifier. -/
def pyStr (comid : ℤ) : String := toString comid

/-- Embedding of a Python dict assignment sites[k] = v on an
insertion-ordered association list: overwrite in place if the key is
present, otherwise append. -/
def dictInsert (sites : List (String × ℚ)) (k : String) (v : ℚ) :
    List (String × ℚ) :=
  if sites.any (fun p => p.1 == k)
  then sites.map (fun p => if p.1 == k then (k, v) else p)
  else sites ++ [(k, v)]

/-- Loop body of process_nwm_data (src/fetch_nwm.py lines 199-216): walk the
parallel arrays, skip NaN and negative readings, skip readings below the
threshold, otherwise store str(comid) -> round(q, 2); count every skip.
The source indexes streamflow by the position of comid, so the recursion
consumes both lists in lockstep (the claims assume equal lengths; on
unequal lengths the source would raise IndexError, outside this model). -/
def processAux (min_streamflow : ℚ) :
    List ℤ → List PyF → List (String × ℚ) → ℕ → List (String × ℚ) × ℕ
  | [], _, sites, skipped => (sites, skipped)
  | _ :: _, [], sites, skipped => (sites, skipped)
  | comid :: cs, q :: qs, sites, skipped =>
    match q with
    | .nan => processAux min_streamflow cs qs sites (skipped + 1)
    | .val x =>
      if x < 0 then processAux min_streamflow cs qs sites (skipped + 1)
      else if x < min_streamflow then
        processAux min_streamflow cs qs sites (skipped + 1)
      else
        processAux min_streamflow cs qs
          (dictInsert sites (pyStr comid) (round2 x)) skipped

/-- Embedding of process_nwm_data (src/fetch_nwm.py lines 172-222): the
sites map starts empty and the skipped counter at zero on every call. -/
def process_nwm_data (comids : List ℤ) (streamflow : List PyF)
    (min_streamflow : ℚ) : List (String × ℚ) × ℕ :=
  processAux min_streamflow comids streamflow [] 0

/-- Row-exclusion predicate as the spec words it: a row is excluded exactly
when its streamflow is NaN, negative, or strictly below the threshold. -/
def excludedRow (q : PyF) (min_streamflow : ℚ) : Bool :=
  match q with
  | .nan => true
  | .val x => decide (x < 0) || decide (x < min_streamflow)

/-- The entries the kept rows contribute, in row order: str(comid) paired
with round(q, 2) for every non-excluded row. -/
def rowEntries (comids : List ℤ) (streamflow : List PyF) (m : ℚ) :
    List (String × ℚ) :=
  (comids.zip streamflow).filterMap fun p =>
    match p.2 with
    | .nan => none
    | .val x =>
      if x < 0 ∨ x < m then none else some (pyStr p.1, round2 x)

/-- Whether the first list is a prefix of the second, on code points. -/
def prefixOfChars : List Char → List Char → Bool
  | [], _ => true
  | _ :: _, [] => false
  | a :: as, b :: bs => a == b && prefixOfChars as bs

/-- Whether the pattern occurs as a contiguous run of the haystack:
the Python operator pat in hay on code-point sequences. -/
def containsChars (pat : List Char) : List Char → Bool
  | [] => prefixOfChars pat []
  | c :: t => prefixOfChars pat (c :: t) || containsChars pat t

/-- Python substring containment test, as in the source expression
"channel_rt" in key. -/
def strContains (hay pat : String) : Bool := containsChars pat.toList hay.toList

/-- Python str.endswith: the pattern is a suffix of the string. -/
def pyEndsWith (s suf : String) : Bool :=
  prefixOfChars suf.toList.reverse s.toList.reverse

/-- Key filter of the Locator (src/fetch_nwm.py lines 77-80): keys that
contain "channel_rt" and end in ".nc". -/
def channelFile (key : String) : Bool :=
  strContains key "channel_rt" && pyEndsWith key ".nc"

/-- Lexicographic comparison of code-point sequences: the order Python
uses to compare strings. -/
def pyStrLeAux : List Char → List Char → Bool
  | [], _ => true
  | _ :: _, [] => false
  | a :: as, b :: bs =>
    if a.toNat < b.toNat then true
    else if b.toNat < a.toNat then false
    else pyStrLeAux as bs

/-- Python string less-or-equal: code-point lexicographic. -/
def pyStrLe (a b : String) : Bool := pyStrLeAux a.toList b.toList

/-- Embedding of Python list.sort(reverse=True) on strings: a stable sort
into descending lexicographic order. Strings compare by a total,
antisymmetric order, so the sorted result is unique and the choice of
sorting algorithm is immaterial. -/
def sortReverse (files : List String) : List String :=
  files.insertionSort (fun a b => pyStrLe b a = true)

/-- Python str.split on a non-empty separator, cutting the sequence at
every non-overlapping occurrence, scanning left to right. The fuel
argument only bounds the recursion; one unit per consumed character plus
one final step always suffices. -/
def splitOnCharsFuel (sep : List Char) : ℕ → List Char → List Char →
    List (List Char)
  | 0, _, acc => [acc.reverse]
  | fuel + 1, hay, acc =>
    match hay with
    | [] => [acc.reverse]
    | c :: t =>
      if prefixOfChars sep hay then
        acc.reverse :: splitOnCharsFuel sep fuel (hay.drop sep.length) []
      else
        splitOnCharsFuel sep fuel t (c :: acc)

/-- Python hay.split(sep) for a non-empty separator. -/
def pySplit (hay sep : String) : List (List Char) :=
  splitOnCharsFuel sep.toList (hay.toList.length + 1) hay.toList []

/-- Embedding of latest.split(".t")[1][:2] (src/fetch_nwm.py line 90):
the first two characters of the piece after the first ".t"; none models
the IndexError when ".t" does not occur (caught by the except clause). -/
def hourSegment (key : String) : Option String :=
  match pySplit key ".t" with
  | _ :: second :: _ => some (String.mk (second.take 2))
  | _ => none

/-- An ASCII decimal digit. -/
def isDigitChar (c : Char) : Bool := 48 ≤ c.toNat && c.toNat ≤ 57

/-- An ASCII whitespace character, as stripped by Python int(). -/
def isSpaceChar (c : Char) : Bool :=
  c == ' ' || c == '\t' || c == '\n' || c == '\r' || c.toNat == 11 || c.toNat == 12

/-- Strip leading and trailing whitespace from a code-point sequence. -/
def trimChars (cs : List Char) : List Char :=
  ((cs.dropWhile isSpaceChar).reverse.dropWhile isSpaceChar).reverse

/-- Embedding of Python int() on the short strings in scope: optional
surrounding whitespace, an optional sign, then decimal digits; none models
the ValueError on any other shape (caught by the except clause). -/
def pyInt (s : String) : Option ℤ :=
  let t := trimChars s.toList
  let core :=
    match t with
    | '-' :: rest => rest
    | '+' :: rest => rest
    | _ => t
  if core.length > 0 && core.all isDigitChar then
    let n : ℕ := core.foldl (fun acc c => 10 * acc + (c.toNat - 48)) 0
    some
      (match t with
       | '-' :: _ => -(n : ℤ)
       | _ => (n : ℤ))
  else none

/-- Hour extraction from a selected key (src/fetch_nwm.py lines 90-91):
parse the two characters after ".t" as an integer and accept it as an hour;
none models every caught failure: ".t" missing (IndexError), a malformed
number (ValueError from int), or an hour rejected by datetime.replace,
which requires 0 <= hour <= 23 (ValueError). -/
def refHour (latest : String) : Option ℤ :=
  ((hourSegment latest).bind pyInt).bind
    (fun h => if 0 ≤ h ∧ h ≤ 23 then some h else none)

/-- Per-date body of the Locator loop (src/fetch_nwm.py lines 73-97), given
the listed keys of that date: filter to channel-routing files, sort in
reverse, take the first (none when no key matched), then derive the
reference hour from that key. -/
def tryKeys (keys : List String) : Option (String × ℤ) :=
  (sortReverse (keys.filter channelFile)).head?.bind
    (fun latest => (refHour latest).map (fun h => (latest, h)))

/-- A Python datetime date triple, as manipulated by the Locator. -/
structure PyDate where
  year : ℤ
  month : ℤ
  day : ℤ
deriving DecidableEq, Repr

/-- Gregorian leap-year rule, as used by Python datetime validation. -/
def isLeapYear (y : ℤ) : Bool :=
  (y % 4 == 0 && y % 100 != 0) || (y % 400 == 0)

/-- Number of days of a month, as used by Python datetime validation. -/
def daysInMonth (y m : ℤ) : ℤ :=
  if m = 2 then (if isLeapYear y then 29 else 28)
  else if m = 4 ∨ m = 6 ∨ m = 9 ∨ m = 11 then 30
  else 31

/-- Validity of a date triple: Python datetime.replace raises ValueError
on any field outside these calendar ranges. -/
def PyDate.validDate (d : PyDate) : Bool :=
  1 ≤ d.month && d.month ≤ 12 && 1 ≤ d.day && d.day ≤ daysInMonth d.year d.month

/-- Embedding of date.replace(day=newDay): succeeds only when the new day
is valid for the unchanged year and month. -/
def replaceDay (d : PyDate) (newDay : ℤ) : Option PyDate :=
  if (PyDate.mk d.year d.month newDay).validDate then
    some (PyDate.mk d.year d.month newDay)
  else none

/-- Candidate date of the Locator for a given days_ago (src/fetch_nwm.py
lines 58-61): days_ago = 0 is today unchanged; otherwise the source runs
date.replace(day=date.day - days_ago), whose failure is an uncaught
ValueError because it happens before the try block. -/
def codeCandidate (today : PyDate) (days_ago : ℕ) : Option PyDate :=
  if days_ago = 0 then some today
  else replaceDay today (today.day - (days_ago : ℤ))

/-- Calendar-correct previous day, following the words of the spec (the
previous calendar day of the UTC date, across month and year boundaries). -/
def prevCalendarDay (d : PyDate) : PyDate :=
  if 1 < d.day then PyDate.mk d.year d.month (d.day - 1)
  else if 1 < d.month then
    PyDate.mk d.year (d.month - 1) (daysInMonth d.year (d.month - 1))
  else PyDate.mk (d.year - 1) 12 31

/-- Model of S3 ListObjectsV2 on a date partition: the store returns the
keys of the partition in ascending key order, truncated to at most maxKeys
entries. The source requests MaxKeys=100 (src/fetch_nwm.py line 70), reads
only response Contents, and never paginates. -/
def list_objects_v2 (partitionKeys : List String) (maxKeys : ℕ) :
    List String :=
  partitionKeys.take maxKeys

/-- Terminal failures of get_latest_nwm_url: dateOutOfRange is the uncaught
ValueError of the day-decrement at src/fetch_nwm.py line 61; noRecentData
is the RuntimeError raised at line 103 after the window is exhausted. -/
inductive LocateError where
  | dateOutOfRange
  | noRecentData
deriving DecidableEq, Repr

/-- One candidate date of the Locator loop, given the outcome of the
listing call: a listing error is caught by the except clause (none, the
loop continues), otherwise the keys are processed by tryKeys. -/
def tryDate (listing : Except Unit (List String)) : Option (String × ℤ) :=
  match listing with
  | .error _ => none
  | .ok keys => tryKeys keys

/-- Embedding of get_latest_nwm_url (src/fetch_nwm.py lines 42-103) over an
oracle giving each candidate date its listing outcome. days_ago = 0 uses
today directly; days_ago = 1 first runs the day decrement, whose failure is
fatal (it precedes the try block), then tries that date; exhaustion of both
candidates raises the not-found RuntimeError. -/
def get_latest_nwm_url (today : PyDate)
    (listingFor : PyDate → Except Unit (List String)) :
    Except LocateError (String × ℤ) :=
  match tryDate (listingFor today) with
  | some r => .ok r
  | none =>
    match replaceDay today (today.day - 1) with
    | none => .error .dateOutOfRange
    | some yesterday =>
      match tryDate (listingFor yesterday) with
      | some r => .ok r
      | none => .error .noRecentData

/-- The JSON document assembled by upload_to_s3 (src/fetch_nwm.py lines
228-233); the two timestamps are carried as opaque ISO strings. -/
structure OutputDoc where
  generated_at : String
  reference_time : String
  site_count : ℕ
  sites : List (String × ℚ)
deriving DecidableEq, Repr

/-- The externally visible effect of upload_to_s3: either a local file
write (dry run) or an authenticated PUT to the output store. -/
inductive UploadAction where
  | localWrite (path : String) (doc : OutputDoc)
  | putObject (bucket key : String) (doc : OutputDoc)
deriving DecidableEq, Repr

/-- Embedding of upload_to_s3 (src/fetch_nwm.py lines 225-269): the output
document is assembled once from the data; a dry run writes it to the local
file current_velocity.json and returns before any client or PUT is
created; otherwise it is PUT to the configured bucket and key. -/
def upload_to_s3 (data : List (String × ℚ)) (refTimeIso genTimeIso : String)
    (dry_run : Bool) (outputBucket outputKey : String) : UploadAction :=
  let output : OutputDoc := ⟨genTimeIso, refTimeIso, data.length, data⟩
  if dry_run then .localWrite "current_velocity.json" output
  else .putObject outputBucket outputKey output

/-- Whether the action is an authenticated PUT to the remote store. -/
def UploadAction.isPut : UploadAction → Bool
  | .localWrite _ _ => false
  | .putObject _ _ _ => true

/-- The document carried by the action. -/
def UploadAction.doc : UploadAction → OutputDoc
  | .localWrite _ d => d
  | .putObject _ _ d => d

/-- Existence of the scratch directory created by tempfile.mkdtemp and of
the downloaded file inside it. -/
structure ScratchState where
  dirExists : Bool
  fileExists : Bool
deriving DecidableEq, Repr

/-- How a run of main terminates. -/
inductive RunOutcome where
  | ok
  | locateFailed
  | downloadFailed
  | processOrUploadFailed
deriving DecidableEq, Repr

/-- The finally block of main (src/fetch_nwm.py lines 299-303): the unlink
and the rmdir both sit under the if, so nothing is removed when the file
does not exist. -/
def cleanupTemp (fs : ScratchState) : ScratchState :=
  if fs.fileExists then ScratchState.mk false false else fs

/-- Control-flow skeleton of main (src/fetch_nwm.py lines 272-303) over
oracles for each fallible step. The locator runs before any scratch state
exists. download_nwm_file creates the scratch directory first (line 119);
on a download failure the exception propagates with the directory still
present - and the file present or not, depending on where the failure hit -
because the try/finally only starts after the download returns (line 287).
Once the download returns, processing and upload run inside the try and the
finally block executes on success and on failure alike. -/
def runMain (locateOk downloadOk fileWrittenOnFailure processUploadOk : Bool) :
    ScratchState × RunOutcome :=
  if !locateOk then (ScratchState.mk false false, .locateFailed)
  else if !downloadOk then
    (ScratchState.mk true fileWrittenOnFailure, .downloadFailed)
  else
    (cleanupTemp (ScratchState.mk true true),
     if processUploadOk then .ok else .processOrUploadFailed)

/-- Zero-pad a number below 1000 to three digits, to build test keys in
ascending key order. -/
def pad3 (i : ℕ) : String :=
  let s := toString i
  if s.length = 1 then "00" ++ s else if s.length = 2 then "0" ++ s else s

/-- A date partition holding 101 keys in ascending key order whose only
channel-routing file is the last key: a store state on which the MaxKeys=100
page cannot contain the newest file. -/
def bigPartition : List String :=
  (List.range 100).map (fun i => "nwm.20240101/analysis_assim/a" ++ pad3 i)
    ++ ["nwm.20240101/analysis_assim/nwm.t12z.analysis_assim.channel_rt.tm00.conus.nc"]

/-- Whether consecutive strings are in strictly ascending lexicographic
order: the order in which S3 returns the keys of a listing. -/
def ascChain : List String → Bool
  | [] => true
  | [_] => true
  | a :: b :: t => (pyStrLe a b && !(a == b)) && ascChain (b :: t)

end NWM

namespace NWM

/-- pyStrLeAux is reflexive. -/
theorem pyStrLeAux_refl (l : List Char) : pyStrLeAux l l = true := by
  induction l with
  | nil => rfl
  | cons a as ih => simp [pyStrLeAux, ih]

/-- pyStrLeAux is total. -/
theorem pyStrLeAux_total (l₁ l₂ : List Char) :
    pyStrLeAux l₁ l₂ = true ∨ pyStrLeAux l₂ l₁ = true := by
  induction l₁ generalizing l₂ with
  | nil => left; rfl
  | cons a as ih =>
    cases l₂ with
    | nil => right; rfl
    | cons b bs =>
      by_cases hab : a.toNat < b.toNat
      · left; simp [pyStrLeAux, hab]
      · by_cases hba : b.toNat < a.toNat
        · right; simp [pyStrLeAux, hba]
        · rcases ih bs with h | h
          · left; simp [pyStrLeAux, hab, hba, h]
          · right; simp [pyStrLeAux, hab, hba, h]

/-- pyStrLeAux is transitive. -/
theorem pyStrLeAux_trans (l₁ l₂ l₃ : List Char)
    (h₁ : pyStrLeAux l₁ l₂ = true) (h₂ : pyStrLeAux l₂ l₃ = true) :
    pyStrLeAux l₁ l₃ = true := by
  induction l₁ generalizing l₂ l₃ with
  | nil => rfl
  | cons a as ih =>
    cases l₂ with
    | nil => simp [pyStrLeAux] at h₁
    | cons b bs =>
      cases l₃ with
      | nil => simp [pyStrLeAux] at h₂
      | cons c cs =>
        simp only [pyStrLeAux] at h₁ h₂ ⊢
        split_ifs at h₁ h₂ ⊢ with hab hba hbc hcb hac hca <;>
          first
            | rfl
            | omega
            | (exact ih bs cs h₁ h₂)

instance : IsTotal String (fun a b => pyStrLe b a = true) :=
  ⟨fun a b => pyStrLeAux_total b.toList a.toList⟩

instance : IsTrans String (fun a b => pyStrLe b a = true) :=
  ⟨fun _ _ _ h₁ h₂ => pyStrLeAux_trans _ _ _ h₂ h₁⟩

/-- sortReverse is sorted in descending lexicographic order. -/
theorem sortReverse_sorted (l : List String) :
    List.Sorted (fun a b => pyStrLe b a = true) (sortReverse l) :=
  List.sorted_insertionSort _ l

/-- sortReverse permutes its input. -/
theorem sortReverse_perm (l : List String) : (sortReverse l).Perm l :=
  List.perm_insertionSort _ l

/-- The head of sortReverse of a non-empty list is its lexicographic
maximum. -/
theorem sortReverse_head_max (l : List String) (h : l ≠ []) :
    ∃ m, (sortReverse l).head? = some m ∧ m ∈ l
      ∧ ∀ k ∈ l, pyStrLe k m = true := by
  have hsorted := sortReverse_sorted l
  cases hs : sortReverse l with
  | nil =>
    have hperm := sortReverse_perm l
    rw [hs] at hperm
    exact absurd hperm.symm.eq_nil h
  | cons m t =>
    refine ⟨m, rfl, ?_, ?_⟩
    · have hperm := sortReverse_perm l
      rw [hs] at hperm
      exact hperm.mem_iff.mp (List.mem_cons_self m t)
    · intro k hk
      have hk' : k ∈ m :: t := by
        have hperm := sortReverse_perm l
        rw [hs] at hperm
        exact hperm.symm.mem_iff.mp hk
      rcases List.mem_cons.mp hk' with rfl | hkt
      · exact pyStrLeAux_refl _
      · rw [hs] at hsorted
        exact (List.pairwise_cons.mp hsorted).1 k hkt

/-- Inserting a fresh key into the sites dict appends the binding. -/
theorem dictInsert_not_mem (sites : List (String × ℚ)) (k : String) (v : ℚ)
    (h : k ∉ sites.map Prod.fst) : dictInsert sites k v = sites ++ [(k, v)] := by
  unfold dictInsert
  have hfalse : sites.any (fun p => p.1 == k) = false := by
    rw [List.any_eq_false]
    intro p hp
    simp only [beq_iff_eq]
    intro he
    exact h (List.mem_map.mpr ⟨p, hp, he⟩)
  rw [hfalse]
  simp

/-- Every binding of the dict after an insert is an old binding or carries
the inserted value. -/
theorem dictInsert_mem (sites : List (String × ℚ)) (k : String) (v : ℚ) :
    ∀ p ∈ dictInsert sites k v, p ∈ sites ∨ p.2 = v := by
  unfold dictInsert
  split
  · intro p hp
    rw [List.mem_map] at hp
    obtain ⟨q, hq, he⟩ := hp
    by_cases hqk : (q.1 == k) = true
    · rw [if_pos hqk] at he
      right
      rw [← he]
    · rw [if_neg hqk] at he
      left
      rw [← he]
      exact hq
  · intro p hp
    rw [List.mem_append] at hp
    rcases hp with hp | hp
    · exact Or.inl hp
    · right
      simp at hp
      rw [hp]

/-- The skipped counter tallies exactly the excluded rows. -/
theorem processAux_skipped (m : ℚ) (cs : List ℤ) (qs : List PyF)
    (sites : List (String × ℚ)) (sk : ℕ) :
    (processAux m cs qs sites sk).2
      = sk + (cs.zip qs).countP (fun p => excludedRow p.2 m) := by
  induction cs generalizing qs sites sk with
  | nil => simp [processAux]
  | cons c cs ih =>
    cases qs with
    | nil => simp [processAux]
    | cons q qs =>
      cases q with
      | nan => simp [processAux, ih, excludedRow]; omega
      | val x =>
        by_cases hx0 : x < 0
        · simp [processAux, hx0, ih, excludedRow]; omega
        · by_cases hxm : x < m
          · simp [processAux, hx0, hxm, ih, excludedRow]; omega
          · simp [processAux, hx0, hxm, ih, excludedRow]

/-- With pairwise distinct stringified identifiers, the sites dict is
exactly the accumulated entries of the kept rows, in row order. -/
theorem processAux_sites (m : ℚ) (cs : List ℤ) (qs : List PyF)
    (sites : List (String × ℚ)) (sk : ℕ)
    (h : (sites.map Prod.fst ++ cs.map pyStr).Nodup) :
    (processAux m cs qs sites sk).1 = sites ++ rowEntries cs qs m := by
  induction cs generalizing qs sites sk with
  | nil => simp [processAux, rowEntries]
  | cons c cs ih =>
    cases qs with
    | nil => simp [processAux, rowEntries]
    | cons q qs =>
      have hsub : (sites.map Prod.fst ++ cs.map pyStr).Nodup := by
        refine List.Nodup.sublist ?_ h
        exact List.Sublist.append (List.Sublist.refl _) (by simp)
      cases q with
      | nan =>
        simp only [processAux, rowEntries, List.zip_cons_cons, List.filterMap_cons]
        exact ih qs sites (sk + 1) hsub
      | val x =>
        by_cases hx0 : x < 0
        · simp only [processAux, if_pos hx0, rowEntries, List.zip_cons_cons,
            List.filterMap_cons]
          rw [if_pos (Or.inl hx0)]
          exact ih qs sites (sk + 1) hsub
        · by_cases hxm : x < m
          · simp only [processAux, if_neg hx0, if_pos hxm, rowEntries,
              List.zip_cons_cons, List.filterMap_cons]
            rw [if_pos (Or.inr hxm)]
            exact ih qs sites (sk + 1) hsub
          · simp only [processAux, if_neg hx0, if_neg hxm, rowEntries,
              List.zip_cons_cons, List.filterMap_cons]
            have hk : pyStr c ∉ sites.map Prod.fst := by
              have := (List.nodup_append.mp h).2.2
              intro hmem
              exact this hmem (by simp)
            rw [dictInsert_not_mem sites (pyStr c) (round2 x) hk]
            rw [ih qs (sites ++ [(pyStr c, round2 x)]) sk ?_]
            · rw [if_neg (by push_neg; exact ⟨le_of_not_lt hx0, le_of_not_lt hxm⟩)]
              simp [rowEntries]
            · simp only [List.map_append, List.map_cons, List.map_nil]
              have : (sites.map Prod.fst ++ [pyStr c]) ++ cs.map pyStr
                  = sites.map Prod.fst ++ (pyStr c :: cs.map pyStr) := by
                simp [List.append_assoc]
              rw [this]
              exact h

/-- roundHalfEven never goes below an integer lower bound of its input. -/
theorem le_roundHalfEven {z : ℤ} {x : ℚ} (h : (z : ℚ) ≤ x) :
    z ≤ roundHalfEven x := by
  have hz : z ≤ ⌊x⌋ := Int.le_floor.mpr h
  unfold roundHalfEven
  split_ifs <;> omega

/-- roundHalfEven moves its input by at most one half downward. -/
theorem roundHalfEven_ge_sub_half (x : ℚ) :
    x - 1/2 ≤ (roundHalfEven x : ℚ) := by
  have h1 : (⌊x⌋ : ℚ) ≤ x := Int.floor_le x
  have h2 : x - 1 < (⌊x⌋ : ℚ) := Int.sub_one_lt_floor x
  unfold roundHalfEven
  split_ifs with ha hb hc <;> push_cast <;> linarith

/-- Two-decimal rounding preserves non-negativity. -/
theorem round2_nonneg {x : ℚ} (h : 0 ≤ x) : 0 ≤ round2 x := by
  unfold round2
  have hz : (0 : ℤ) ≤ roundHalfEven (100 * x) :=
    le_roundHalfEven (by push_cast; linarith)
  have : (0 : ℚ) ≤ (roundHalfEven (100 * x) : ℚ) := by exact_mod_cast hz
  linarith

/-- Two-decimal rounding moves a value by at most 1/200 below any lower
bound it satisfied. -/
theorem round2_ge_sub {m x : ℚ} (h : m ≤ x) : m - 1/200 ≤ round2 x := by
  unfold round2
  have := roundHalfEven_ge_sub_half (100 * x)
  rw [le_div_iff₀ (by norm_num : (0:ℚ) < 100)]
  linarith

/-- Two-decimal rounding preserves any lower bound that is an integer
multiple of one hundredth. -/
theorem round2_ge_of_cent {z : ℤ} {x : ℚ} (h : (z : ℚ)/100 ≤ x) :
    (z : ℚ)/100 ≤ round2 x := by
  unfold round2
  have hz : z ≤ roundHalfEven (100 * x) := by
    refine le_roundHalfEven ?_
    rw [div_le_iff₀ (by norm_num : (0:ℚ) < 100)] at h
    linarith
  have : (z : ℚ) ≤ (roundHalfEven (100 * x) : ℚ) := by exact_mod_cast hz
  gcongr

/-- Every value stored by the extraction loop is the two-decimal rounding
of a kept reading: one that is non-negative and at or above the
threshold. -/
theorem processAux_values (m : ℚ) (cs : List ℤ) (qs : List PyF)
    (sites : List (String × ℚ)) (sk : ℕ) :
    ∀ p ∈ (processAux m cs qs sites sk).1,
      p ∈ sites ∨ ∃ x : ℚ, 0 ≤ x ∧ m ≤ x ∧ p.2 = round2 x := by
  induction cs generalizing qs sites sk with
  | nil => intro p hp; exact Or.inl hp
  | cons c cs ih =>
    cases qs with
    | nil => intro p hp; exact Or.inl hp
    | cons q qs =>
      cases q with
      | nan => exact ih qs sites (sk + 1)
      | val x =>
        by_cases hx0 : x < 0
        · simpa [processAux, hx0] using ih qs sites (sk + 1)
        · by_cases hxm : x < m
          · simpa [processAux, hx0, hxm] using ih qs sites (sk + 1)
          · intro p hp
            simp only [processAux, if_neg hx0, if_neg hxm] at hp
            rcases ih qs (dictInsert sites (pyStr c) (round2 x)) sk p hp with
              hmem | hex
            · rcases dictInsert_mem sites (pyStr c) (round2 x) p hmem with
                hs | hv
              · exact Or.inl hs
              · exact Or.inr ⟨x, le_of_not_lt hx0, le_of_not_lt hxm, hv⟩
            · exact Or.inr hex

/-- The two classifiers, written out on a numeric reading. -/
theorem categorize_velocity_val (q : ℚ) :
    categorize_velocity (.val q)
      = if q < 0.1 then "very_slow"
        else if q < 0.3 then "slow"
        else if q < 0.6 then "moderate"
        else if q < 1.0 then "fast"
        else if q < 2.0 then "very_fast"
        else "extreme" := by
  simp [categorize_velocity, pyLt]

/-- categorize_streamflow written out on a numeric reading. -/
theorem categorize_streamflow_val (q : ℚ) :
    categorize_streamflow (.val q)
      = if q < 1 then "very_low"
        else if q < 10 then "low"
        else if q < 50 then "moderate"
        else if q < 200 then "high"
        else if q < 1000 then "very_high"
        else "extreme" := by
  simp [categorize_streamflow, pyLt]

/-- Bucket characterization of categorize_velocity on numeric readings:
half-open intervals, lower bound inclusive, upper bound exclusive, with no
gaps or overlaps. -/
theorem cv_buckets (q : ℚ) :
    (categorize_velocity (.val q) = "very_slow" ↔ q < 0.1)
    ∧ (categorize_velocity (.val q) = "slow" ↔ 0.1 ≤ q ∧ q < 0.3)
    ∧ (categorize_velocity (.val q) = "moderate" ↔ 0.3 ≤ q ∧ q < 0.6)
    ∧ (categorize_velocity (.val q) = "fast" ↔ 0.6 ≤ q ∧ q < 1.0)
    ∧ (categorize_velocity (.val q) = "very_fast" ↔ 1.0 ≤ q ∧ q < 2.0)
    ∧ (categorize_velocity (.val q) = "extreme" ↔ 2.0 ≤ q) := by
  rw [categorize_velocity_val]
  split_ifs with h1 h2 h3 h4 h5 <;>
    refine ⟨?_, ?_, ?_, ?_, ?_, ?_⟩ <;> constructor <;> intro hh <;>
    first
      | rfl
      | exact absurd hh (by decide)
      | (exfalso; linarith [hh.1, hh.2])
      | (exfalso; linarith [hh])
      | exact ⟨by linarith, by linarith⟩
      | linarith

/-- Bucket characterization of categorize_streamflow on numeric readings:
half-open intervals, lower bound inclusive, upper bound exclusive, with no
gaps or overlaps. -/
theorem cs_buckets (q : ℚ) :
    (categorize_streamflow (.val q) = "very_low" ↔ q < 1)
    ∧ (categorize_streamflow (.val q) = "low" ↔ 1 ≤ q ∧ q < 10)
    ∧ (categorize_streamflow (.val q) = "moderate" ↔ 10 ≤ q ∧ q < 50)
    ∧ (categorize_streamflow (.val q) = "high" ↔ 50 ≤ q ∧ q < 200)
    ∧ (categorize_streamflow (.val q) = "very_high" ↔ 200 ≤ q ∧ q < 1000)
    ∧ (categorize_streamflow (.val q) = "extreme" ↔ 1000 ≤ q) := by
  rw [categorize_streamflow_val]
  split_ifs with h1 h2 h3 h4 h5 <;>
    refine ⟨?_, ?_, ?_, ?_, ?_, ?_⟩ <;> constructor <;> intro hh <;>
    first
      | rfl
      | exact absurd hh (by decide)
      | (exfalso; linarith [hh.1, hh.2])
      | (exfalso; linarith [hh])
      | exact ⟨by linarith, by linarith⟩
      | linarith

/-- Day decrement succeeds for any valid date whose day is at least 2. -/
theorem replaceDay_pred (today : PyDate) (hv : today.validDate = true)
    (hd : 2 ≤ today.day) :
    replaceDay today (today.day - 1)
      = some ⟨today.year, today.month, today.day - 1⟩ := by
  unfold replaceDay
  rw [if_pos]
  unfold PyDate.validDate at hv ⊢
  simp only [Bool.and_eq_true, decide_eq_true_eq] at hv ⊢
  obtain ⟨⟨⟨h1, h2⟩, _⟩, h4⟩ := hv
  refine ⟨⟨⟨h1, h2⟩, by omega⟩, by omega⟩

/-- C1: on the rows (100, -1.0), (101, NaN), (102, 5.0), (103, 15.0) with
threshold 10.0, process_nwm_data returns exactly the map from "103" to 15.0
and a skipped count of 3; in general, on equal-length arrays with pairwise
distinct stringified identifiers (an invariant of the input files), the
skipped count tallies exactly the rows whose streamflow is NaN, negative,
or strictly below the threshold, and the sites map holds exactly the
entries str(identifier) to round(value, 2) of the remaining rows. -/
theorem c1_extractor_row_filter :
    process_nwm_data [100, 101, 102, 103] [.val (-1), .nan, .val 5, .val 15] 10
        = ([("103", 15)], 3)
  ∧ ∀ (comids : List ℤ) (streamflow : List PyF) (m : ℚ),
      comids.length = streamflow.length →
      (comids.map pyStr).Nodup →
      (process_nwm_data comids streamflow m).2
          = (comids.zip streamflow).countP (fun p => excludedRow p.2 m)
      ∧ (process_nwm_data comids streamflow m).1
          = rowEntries comids streamflow m := by
  constructor
  · norm_num [process_nwm_data, processAux, dictInsert, pyStr, round2,
      roundHalfEven]
    rfl
  · intro comids qs m _ hnd
    constructor
    · simpa using processAux_skipped m comids qs [] 0
    · simpa using processAux_sites m comids qs [] 0 (by simpa using hnd)

/-- C1 witness: the general characterization applied to the concrete rows
of the claim. -/
theorem c1_extractor_row_filter_witness :
    (process_nwm_data [100, 101, 102, 103] [.val (-1), .nan, .val 5, .val 15]
        10).2
      = (([100, 101, 102, 103] : List ℤ).zip
          [PyF.val (-1), .nan, .val 5, .val 15]).countP
            (fun p => excludedRow p.2 10)
    ∧ (process_nwm_data [100, 101, 102, 103]
        [.val (-1), .nan, .val 5, .val 15] 10).1
      = rowEntries [100, 101, 102, 103] [.val (-1), .nan, .val 5, .val 15]
          10 :=
  c1_extractor_row_filter.2 [100, 101, 102, 103]
    [.val (-1), .nan, .val 5, .val 15] 10 rfl (by decide)

/-- C2: whenever some listed key passes the channel-routing filter, the
Locator selects the lexicographically greatest matching key (the head of
the reverse-sorted list, which belongs to the matching keys and dominates
all of them in code-point order), every successful result carries that key,
and the derived hour is obtained by parsing the two-character segment after
".t" of the selected key; on the keys with t09z, t12z and t06z for one
date, the t12z key is selected with hour 12. -/
theorem c2_locator_selects_lex_max :
    (∀ keys : List String,
      keys.filter channelFile ≠ [] →
      ∃ latest, (sortReverse (keys.filter channelFile)).head? = some latest
        ∧ latest ∈ keys.filter channelFile
        ∧ (∀ k ∈ keys.filter channelFile, pyStrLe k latest = true)
        ∧ ∀ r, tryKeys keys = some r → r.1 = latest)
    ∧ (∀ keys : List String, ∀ latest : String, ∀ h : ℤ,
        tryKeys keys = some (latest, h) →
        ∃ seg, hourSegment latest = some seg ∧ pyInt seg = some h)
    ∧ tryKeys
        ["nwm.20240315/analysis_assim/nwm.t09z.analysis_assim.channel_rt.tm00.conus.nc",
         "nwm.20240315/analysis_assim/nwm.t12z.analysis_assim.channel_rt.tm00.conus.nc",
         "nwm.20240315/analysis_assim/nwm.t06z.analysis_assim.channel_rt.tm00.conus.nc"]
        = some
          ("nwm.20240315/analysis_assim/nwm.t12z.analysis_assim.channel_rt.tm00.conus.nc",
           12) := by
  refine ⟨?_, ?_, by decide⟩
  · intro keys hne
    obtain ⟨m', hhead, hmem, hmax⟩ := sortReverse_head_max _ hne
    refine ⟨m', hhead, hmem, hmax, ?_⟩
    intro r hr
    unfold tryKeys at hr
    rw [hhead] at hr
    rw [Option.some_bind] at hr
    obtain ⟨hi, _, hre⟩ := Option.map_eq_some'.mp hr
    rw [← hre]
  · intro keys latest h htk
    unfold tryKeys at htk
    obtain ⟨l, hhead, hrest⟩ := Option.bind_eq_some.mp htk
    obtain ⟨hi, hrh, hre⟩ := Option.map_eq_some'.mp hrest
    have hl : l = latest := congrArg Prod.fst hre
    have hh : hi = h := congrArg Prod.snd hre
    subst hl
    subst hh
    unfold refHour at hrh
    obtain ⟨a, hba, hga⟩ := Option.bind_eq_some.mp hrh
    obtain ⟨seg, hseg, hint⟩ := Option.bind_eq_some.mp hba
    refine ⟨seg, hseg, ?_⟩
    rw [hint]
    split_ifs at hga
    rw [Option.some.inj hga]

/-- C2 witness: the selection property applied to the three concrete keys
of the claim. -/
theorem c2_locator_selects_lex_max_witness :
    ∃ latest,
      (sortReverse
        (["nwm.20240315/analysis_assim/nwm.t09z.analysis_assim.channel_rt.tm00.conus.nc",
          "nwm.20240315/analysis_assim/nwm.t12z.analysis_assim.channel_rt.tm00.conus.nc",
          "nwm.20240315/analysis_assim/nwm.t06z.analysis_assim.channel_rt.tm00.conus.nc"].filter
            channelFile)).head? = some latest
      ∧ latest ∈
          ["nwm.20240315/analysis_assim/nwm.t09z.analysis_assim.channel_rt.tm00.conus.nc",
           "nwm.20240315/analysis_assim/nwm.t12z.analysis_assim.channel_rt.tm00.conus.nc",
           "nwm.20240315/analysis_assim/nwm.t06z.analysis_assim.channel_rt.tm00.conus.nc"].filter
            channelFile
      ∧ (∀ k ∈
          ["nwm.20240315/analysis_assim/nwm.t09z.analysis_assim.channel_rt.tm00.conus.nc",
           "nwm.20240315/analysis_assim/nwm.t12z.analysis_assim.channel_rt.tm00.conus.nc",
           "nwm.20240315/analysis_assim/nwm.t06z.analysis_assim.channel_rt.tm00.conus.nc"].filter
            channelFile, pyStrLe k latest = true)
      ∧ ∀ r, tryKeys
          ["nwm.20240315/analysis_assim/nwm.t09z.analysis_assim.channel_rt.tm00.conus.nc",
           "nwm.20240315/analysis_assim/nwm.t12z.analysis_assim.channel_rt.tm00.conus.nc",
           "nwm.20240315/analysis_assim/nwm.t06z.analysis_assim.channel_rt.tm00.conus.nc"]
          = some r → r.1 = latest :=
  c2_locator_selects_lex_max.1
    ["nwm.20240315/analysis_assim/nwm.t09z.analysis_assim.channel_rt.tm00.conus.nc",
     "nwm.20240315/analysis_assim/nwm.t12z.analysis_assim.channel_rt.tm00.conus.nc",
     "nwm.20240315/analysis_assim/nwm.t06z.analysis_assim.channel_rt.tm00.conus.nc"]
    (by decide)

/-- C3: the first candidate is the current UTC date, but computing the
second candidate fails on the first day of a month: the source decrements
the day field directly, producing day 0, which date.replace rejects - on
2024-07-01 and on 2025-01-01 the decrement yields none while the true
previous calendar day (2024-06-30, resp. 2024-12-31) exists and is valid;
away from month boundaries (2024-03-15) the decrement does agree with the
calendar-correct previous day. -/
theorem c3_candidate_day_rollover :
    codeCandidate ⟨2024, 7, 1⟩ 0 = some ⟨2024, 7, 1⟩
    ∧ (PyDate.mk 2024 7 1).validDate = true
    ∧ codeCandidate ⟨2024, 7, 1⟩ 1 = none
    ∧ prevCalendarDay ⟨2024, 7, 1⟩ = ⟨2024, 6, 30⟩
    ∧ (prevCalendarDay ⟨2024, 7, 1⟩).validDate = true
    ∧ codeCandidate ⟨2025, 1, 1⟩ 1 = none
    ∧ prevCalendarDay ⟨2025, 1, 1⟩ = ⟨2024, 12, 31⟩
    ∧ codeCandidate ⟨2024, 3, 15⟩ 1 = some (prevCalendarDay ⟨2024, 3, 15⟩) := by
  decide

set_option maxHeartbeats 2000000 in
/-- C4: the Locator does not obtain all keys of a partition: it reads a
single MaxKeys=100 page and never paginates. On a partition of 101 keys in
ascending key order whose lexicographically greatest channel-routing file
is the last key, the page misses that file entirely - the truncated listing
yields no selection at all, while the full partition would yield the t12z
channel-routing key with hour 12. -/
theorem c4_listing_page_truncation :
    ascChain bigPartition = true
    ∧ 100 < bigPartition.length
    ∧ tryKeys (list_objects_v2 bigPartition 100) = none
    ∧ tryKeys bigPartition
        = some
          ("nwm.20240101/analysis_assim/nwm.t12z.analysis_assim.channel_rt.tm00.conus.nc",
           12) := by
  decide

/-- C5 counterexample: on a first-of-month date with both listings valid
but empty, every candidate yields no valid file, yet the Locator terminates
with the uncaught date ValueError instead of the not-found error - the
claimed equivalence fails as stated. -/
theorem c5_counterexample :
    tryKeys ([] : List String) = none
    ∧ get_latest_nwm_url ⟨2024, 7, 1⟩ (fun _ => .ok [])
        = .error .dateOutOfRange
    ∧ get_latest_nwm_url ⟨2024, 7, 1⟩ (fun _ => .ok [])
        ≠ .error .noRecentData := by
  refine ⟨rfl, rfl, ?_⟩
  intro h
  have h' := Except.error.inj h
  exact LocateError.noConfusion h'

/-- C5 amended: for every valid current date whose day of month is at
least 2, the Locator raises its not-found error exactly when both
candidate dates yield no valid channel-routing result; a successful first
candidate returns immediately, a failed first candidate (listing error,
empty listing, no matching key, or malformed hour) silently falls through
to the second, and the date error never occurs. -/
theorem c5_window_exhaustion_iff :
    ∀ (today : PyDate) (listingFor : PyDate → Except Unit (List String)),
      today.validDate = true → 2 ≤ today.day →
      ∃ yesterday, replaceDay today (today.day - 1) = some yesterday
        ∧ (get_latest_nwm_url today listingFor = .error .noRecentData
             ↔ tryDate (listingFor today) = none
               ∧ tryDate (listingFor yesterday) = none)
        ∧ (∀ r, tryDate (listingFor today) = some r →
            get_latest_nwm_url today listingFor = .ok r)
        ∧ (∀ r, tryDate (listingFor today) = none →
            tryDate (listingFor yesterday) = some r →
            get_latest_nwm_url today listingFor = .ok r)
        ∧ get_latest_nwm_url today listingFor ≠ .error .dateOutOfRange := by
  intro today lf hv hd
  refine ⟨_, replaceDay_pred today hv hd, ?_, ?_, ?_, ?_⟩
  · cases h1 : tryDate (lf today) with
    | some r => simp [get_latest_nwm_url, h1]
    | none =>
      cases h2 : tryDate (lf ⟨today.year, today.month, today.day - 1⟩) with
      | some r =>
        simp [get_latest_nwm_url, h1, replaceDay_pred today hv hd, h2]
      | none =>
        simp [get_latest_nwm_url, h1, replaceDay_pred today hv hd, h2]
  · intro r h1
    simp [get_latest_nwm_url, h1]
  · intro r h1 h2
    simp [get_latest_nwm_url, h1, replaceDay_pred today hv hd, h2]
  · cases h1 : tryDate (lf today) with
    | some r => simp [get_latest_nwm_url, h1]
    | none =>
      cases h2 : tryDate (lf ⟨today.year, today.month, today.day - 1⟩) with
      | some r =>
        simp [get_latest_nwm_url, h1, replaceDay_pred today hv hd, h2]
      | none =>
        simp [get_latest_nwm_url, h1, replaceDay_pred today hv hd, h2]

/-- C5 witness: the amended equivalence applied to 2024-03-15 with both
listings failing. -/
theorem c5_window_exhaustion_iff_witness :
    ∃ yesterday,
      replaceDay ⟨2024, 3, 15⟩ ((PyDate.mk 2024 3 15).day - 1) = some yesterday
      ∧ (get_latest_nwm_url ⟨2024, 3, 15⟩ (fun _ => .error ())
            = .error .noRecentData
          ↔ tryDate ((fun _ => Except.error ()) (PyDate.mk 2024 3 15)) = none
            ∧ tryDate ((fun _ => Except.error ()) yesterday) = none)
      ∧ (∀ r, tryDate ((fun _ => Except.error ()) (PyDate.mk 2024 3 15)) = some r →
          get_latest_nwm_url ⟨2024, 3, 15⟩ (fun _ => .error ()) = .ok r)
      ∧ (∀ r, tryDate ((fun _ => Except.error ()) (PyDate.mk 2024 3 15)) = none →
          tryDate ((fun _ => Except.error ()) yesterday) = some r →
          get_latest_nwm_url ⟨2024, 3, 15⟩ (fun _ => .error ()) = .ok r)
      ∧ get_latest_nwm_url ⟨2024, 3, 15⟩ (fun _ => .error ())
          ≠ .error .dateOutOfRange :=
  c5_window_exhaustion_iff ⟨2024, 3, 15⟩ (fun _ => .error ()) (by decide)
    (by decide)

/-- C6 counterexample: with threshold 10.004 (not a multiple of one
hundredth) and the single reading 10.004, the row passes the filter but the
stored two-decimal rounding 10.0 falls below the threshold - the claimed
invariant fails as stated for rounded values. -/
theorem c6_counterexample :
    (process_nwm_data [1] [.val (10004/1000)] (10004/1000)).1 = [("1", 10)]
    ∧ ¬ (∀ p ∈ (process_nwm_data [1] [.val (10004/1000)] (10004/1000)).1,
        (10004/1000 : ℚ) ≤ p.2) := by
  constructor
  · norm_num [process_nwm_data, processAux, dictInsert, pyStr, round2,
      roundHalfEven]
    rfl
  · norm_num [process_nwm_data, processAux, dictInsert, pyStr, round2,
      roundHalfEven]

/-- C6 amended: every value of the sites map is non-negative, within 1/200
of the threshold from below, and at or above the threshold itself whenever
the threshold is an integer multiple of one hundredth (as the default 10.0
is); the map is rebuilt from empty on every call by construction of
process_nwm_data. -/
theorem c6_value_invariants :
    ∀ (comids : List ℤ) (streamflow : List PyF) (m : ℚ),
      comids.length = streamflow.length →
      ∀ p ∈ (process_nwm_data comids streamflow m).1,
        0 ≤ p.2 ∧ m - 1/200 ≤ p.2 ∧ ∀ z : ℤ, m = (z : ℚ)/100 → m ≤ p.2 := by
  intro comids qs m _ p hp
  rcases processAux_values m comids qs [] 0 p hp with hnil | ⟨x, hx0, hxm, he⟩
  · simp at hnil
  · rw [he]
    refine ⟨round2_nonneg hx0, round2_ge_sub hxm, ?_⟩
    intro z hz
    rw [hz]
    rw [hz] at hxm
    exact round2_ge_of_cent hxm

/-- C6 witness: the invariants applied to the entry produced by the rows of
the C1 example. -/
theorem c6_value_invariants_witness :
    0 ≤ ((("103" : String), (15 : ℚ)) : String × ℚ).2
    ∧ (10 : ℚ) - 1/200 ≤ ((("103" : String), (15 : ℚ)) : String × ℚ).2
    ∧ ∀ z : ℤ, (10 : ℚ) = (z : ℚ)/100 →
        (10 : ℚ) ≤ ((("103" : String), (15 : ℚ)) : String × ℚ).2 :=
  c6_value_invariants [100, 101, 102, 103] [.val (-1), .nan, .val 5, .val 15]
    10 rfl ("103", 15)
    (by norm_num [process_nwm_data, processAux, dictInsert, pyStr, round2,
      roundHalfEven]; rfl)

/-- C7: both classifiers are total on numeric readings and partition the
line into six half-open buckets, lower bound inclusive and upper bound
exclusive, with no gaps or overlaps; in particular velocity 0.1 is slow,
velocity 0.0999 is very_slow, streamflow 1000 is extreme and streamflow
999.999 is very_high. -/
theorem c7_classifier_totality_boundaries :
    (∀ q : ℚ,
      (categorize_velocity (.val q) = "very_slow" ↔ q < 0.1)
      ∧ (categorize_velocity (.val q) = "slow" ↔ 0.1 ≤ q ∧ q < 0.3)
      ∧ (categorize_velocity (.val q) = "moderate" ↔ 0.3 ≤ q ∧ q < 0.6)
      ∧ (categorize_velocity (.val q) = "fast" ↔ 0.6 ≤ q ∧ q < 1.0)
      ∧ (categorize_velocity (.val q) = "very_fast" ↔ 1.0 ≤ q ∧ q < 2.0)
      ∧ (categorize_velocity (.val q) = "extreme" ↔ 2.0 ≤ q))
    ∧ (∀ q : ℚ,
      (categorize_streamflow (.val q) = "very_low" ↔ q < 1)
      ∧ (categorize_streamflow (.val q) = "low" ↔ 1 ≤ q ∧ q < 10)
      ∧ (categorize_streamflow (.val q) = "moderate" ↔ 10 ≤ q ∧ q < 50)
      ∧ (categorize_streamflow (.val q) = "high" ↔ 50 ≤ q ∧ q < 200)
      ∧ (categorize_streamflow (.val q) = "very_high" ↔ 200 ≤ q ∧ q < 1000)
      ∧ (categorize_streamflow (.val q) = "extreme" ↔ 1000 ≤ q))
    ∧ categorize_velocity (.val 0.1) = "slow"
    ∧ categorize_velocity (.val 0.0999) = "very_slow"
    ∧ categorize_streamflow (.val 1000) = "extreme"
    ∧ categorize_streamflow (.val 999.999) = "very_high" := by
  refine ⟨cv_buckets, cs_buckets, ?_, ?_, ?_, ?_⟩ <;>
    norm_num [categorize_velocity, categorize_streamflow, pyLt]

/-- C8: for the same sites data and reference time, a dry run produces a
local write and never the authenticated PUT, and the sites mapping of the
locally written document equals the sites mapping of the document a
non-dry run publishes, both being exactly the input data. -/
theorem c8_dry_run_equivalence :
    ∀ (data : List (String × ℚ)) (rt gt b k : String),
      (upload_to_s3 data rt gt true b k).isPut = false
      ∧ (∃ doc, upload_to_s3 data rt gt true b k
          = .localWrite "current_velocity.json" doc)
      ∧ (upload_to_s3 data rt gt true b k).doc.sites
          = (upload_to_s3 data rt gt false b k).doc.sites
      ∧ (upload_to_s3 data rt gt false b k).doc.sites = data := by
  intro data rt gt b k
  exact ⟨rfl, ⟨_, rfl⟩, rfl, rfl⟩

/-- C9 counterexample: when the download step fails after the scratch
directory was created, the run terminates with the directory still in
existence, because the try/finally begins only after the download returns -
the claimed cleanup on every exit path fails as stated. -/
theorem c9_counterexample :
    (runMain true false false true).1.dirExists = true
    ∧ (runMain true false false true).2 = .downloadFailed :=
  ⟨rfl, rfl⟩

/-- C9 amended: on every exit path that never reaches the download (nothing
was created) or on which the download returned (the finally block runs,
whether processing and upload succeed or fail), the temporary file and the
scratch directory no longer exist at termination. -/
theorem c9_cleanup_after_download :
    ∀ lo dl fl po : Bool,
      lo = false ∨ dl = true →
      (runMain lo dl fl po).1.dirExists = false
      ∧ (runMain lo dl fl po).1.fileExists = false := by
  intro lo dl fl po h
  rcases h with h | h
  · subst h
    exact ⟨rfl, rfl⟩
  · subst h
    cases lo
    · exact ⟨rfl, rfl⟩
    · exact ⟨rfl, rfl⟩

/-- C9 witness: cleanup on the path where the download returned and the
subsequent processing or upload failed. -/
theorem c9_cleanup_after_download_witness :
    (runMain true true false false).1.dirExists = false
    ∧ (runMain true true false false).1.fileExists = false :=
  c9_cleanup_after_download true true false false (Or.inr rfl)

/-- C10: a NaN reading falls through every strict-less-than comparison of
both classifiers, so it is silently assigned the highest bucket extreme
rather than rejected. -/
theorem c10_nan_lands_in_extreme :
    categorize_velocity .nan = "extreme"
    ∧ categorize_streamflow .nan = "extreme"
    ∧ ∀ c : ℚ, pyLt .nan c = false :=
  ⟨rfl, rfl, fun _ => rfl⟩

end NWM
